import Mathlib

/-!
# GoCut: a streaming byte-trimming filter

A shallow embedding of `gocut.go` and the properties of its pipeline.

* `Slice` is a Go `[]byte` seen from its pointer: the `len` visible bytes and
  the `cap - len` bytes of the backing array that a reslice can still reach.
* `cut_line` is the body of the receive loop of `cut_bytes` (lines 40-45).
* `step` is the interleaving semantics of the three goroutines of `main`,
  `cut_bytes` and `save_file` over the unbuffered channels `line_chan`,
  `save_chan` and `done_chan`; one `Action` is one scheduling choice. It carries
  each line as the value it has when a stage holds it, which is what the order of
  the channel operations and the framing done by `save_file` depend on.
* `Mem.step` is the same semantics over the memory of the process: the lines are
  slice headers into the buffer of the `bufio.Scanner`, which `scanner.Scan()`
  shifts and refills while lines are still in flight. What the program writes for
  a given input is settled there.
-/

namespace GoCut

/-! ## Byte slices -/

/-- One byte of a line. The trim never inspects a byte, only positions. -/
abbrev Byte := Nat

/-- A Go byte slice seen from its pointer: `data` holds its `len(s)` visible
bytes, `spare` the `cap(s) - len(s)` bytes of the backing array behind them. -/
structure Slice where
  data : List Byte
  spare : List Byte
deriving DecidableEq

/-- Go `len(s)`. -/
def Slice.len (s : Slice) : Nat := s.data.length

/-- Go `cap(s)`. -/
def Slice.cap (s : Slice) : Nat := s.data.length + s.spare.length

/-- Go `s[lo:]`: the upper index defaults to `len(s)`, and the expression
panics (`none`) unless `0 <= lo <= len(s)`. -/
def Slice.sliceLow (s : Slice) (lo : Int) : Option Slice :=
  if 0 ≤ lo ∧ lo ≤ (s.len : Int) then some ⟨s.data.drop lo.toNat, s.spare⟩ else none

/-- Go `s[:hi]`: for a slice the upper index is checked against `cap(s)`, not
`len(s)`; the expression panics (`none`) unless `0 <= hi <= cap(s)`. -/
def Slice.sliceHigh (s : Slice) (hi : Int) : Option Slice :=
  if 0 ≤ hi ∧ hi ≤ (s.cap : Int) then
    some ⟨(s.data ++ s.spare).take hi.toNat, (s.data ++ s.spare).drop hi.toNat⟩
  else none

/-- The global `options` struct filled by the flag parser in `init`. -/
structure Options where
  Cpuprof : String
  Outfile : String
  Leadingbytes : Int
  Trailingbytes : Int
deriving DecidableEq

/-- The trim that `cut_bytes` applies to one received line (lines 40-45):
`none` is a run-time panic of one of the two slice expressions. -/
def cut_line (o : Options) (line : Slice) : Option Slice :=
  match (if o.Leadingbytes > 0 then line.sliceLow o.Leadingbytes else some line) with
  | none => none
  | some line1 =>
    if o.Trailingbytes > 0 then line1.sliceHigh o.Trailingbytes else some line1

/-- The trim in the words of the specification: drop the first `lead` bytes
(skipped when `lead = 0`), then keep the first `trail` bytes of what remains
(skipped when `trail = 0`). -/
def trimSpec (lead trail : Int) (bytes : List Byte) : List Byte :=
  let rest := if lead = 0 then bytes else bytes.drop lead.toNat
  if trail = 0 then rest else rest.take trail.toNat

/-- The bytes of `line[lo:hi]` in the words of the specification: those at
offsets `lo` up to, not including, `hi`. -/
def byteRange (lo hi : Int) (bytes : List Byte) : List Byte :=
  (bytes.take hi.toNat).drop lo.toNat

/-- The bytes of `"abcdef"`. -/
def abcdef : List Byte := [97, 98, 99, 100, 101, 102]

/-! ## The pipeline -/

/-- Where `main` stands in lines 117-133. -/
inductive MainPc where
  /-- About to call `scanner.Scan()` (line 122). -/
  | scan
  /-- Blocked in `line_chan <- scanner.Bytes()` (line 123). -/
  | send (line : Slice)
  /-- The scan loop has ended; `close(line_chan)` comes next (line 131). -/
  | closeLine
  /-- Blocked in `<-done_chan` (line 133). -/
  | waitDone
  /-- Function `main` has returned. -/
  | returned
deriving DecidableEq

/-- Where `cut_bytes` stands in lines 33-51. -/
inductive CutPc where
  /-- Blocked in `line, more := <-line_chan` (line 38). -/
  | recv
  /-- Received a line with `more = true`; lines 40-45 come next. -/
  | trim (line : Slice)
  /-- Blocked in `save_chan <- line` (line 46). -/
  | send (line : Slice)
  /-- Received `more = false` and left the loop; the deferred
  `close(save_chan)` comes next. -/
  | brk
  /-- A slice expression panicked; the deferred `close(save_chan)` runs while
  the goroutine unwinds. -/
  | panicking
  /-- Function `cut_bytes` has returned. -/
  | returned
  /-- The deferred call has run during the panic; the runtime ends the
  process next. -/
  | unwound
deriving DecidableEq

/-- Where `save_file` stands in lines 53-86. -/
inductive SinkPc where
  /-- Choosing or opening the output target (lines 57-66). -/
  | opening
  /-- Blocked in `line, more := <-save_chan` (line 73). -/
  | recv
  /-- Received a line with `more = true`; lines 75-76 come next. -/
  | write (line : Slice)
  /-- Received `more = false` and left the loop; `bfh.Flush()` comes next. -/
  | flush
  /-- The deferred `fh.Close()` comes next. -/
  | closeFh
  /-- The deferred `close(done_chan)` comes next. -/
  | closeDone
  /-- Function `save_file` has returned. -/
  | returned
deriving DecidableEq

/-- A message on the diagnostic stream. -/
inductive Diag where
  /-- Line 126: `reading standard input:`. -/
  | readError
  /-- Line 63: `Could not open file for writing:`. -/
  | openError
  /-- Line 84: `Couldn't flush output to buffered file:`. -/
  | flushError
  /-- The runtime's report of an unrecovered panic. -/
  | panicReport
deriving DecidableEq

/-- The state of the running process. `lineHist` and `saveHist` record the
values handed over `line_chan` and `save_chan` so far, `bfh` the bytes passed to
the buffered writer so far, `flushed` the outcome of `bfh.Flush()`. -/
structure State where
  /-- The lines `scanner.Scan()` has yet to deliver. -/
  input : List Slice
  /-- Whether the scanner ends with an error instead of end of input. -/
  readErr : Bool
  main : MainPc
  cut : CutPc
  sink : SinkPc
  lineClosed : Bool
  saveClosed : Bool
  doneClosed : Bool
  lineHist : List Slice
  saveHist : List Slice
  bfh : List Byte
  flushed : Option Bool
  fhClosed : Bool
  diag : List Diag
  /-- The exit status once the process has ended. -/
  exit : Option Nat
deriving DecidableEq

/-- The state after line 115: channels made, both goroutines started, `main`
about to scan the first line. -/
def init (input : List Slice) (readErr : Bool) : State :=
  { input := input, readErr := readErr, main := .scan, cut := .recv, sink := .opening,
    lineClosed := false, saveClosed := false, doneClosed := false,
    lineHist := [], saveHist := [], bfh := [], flushed := none, fhClosed := false,
    diag := [], exit := none }

/-- One scheduling choice: which goroutine moves, or which two meet on an
unbuffered channel, together with the outcome of a system call. -/
inductive Action where
  /-- Function `main`: one call of `scanner.Scan()` with the test of its result. -/
  | scan
  /-- Functions `main` and `cut_bytes` meet on `line_chan`. -/
  | sendLine
  /-- Function `main`: `close(line_chan)`. -/
  | closeLine
  /-- Function `main`: `<-done_chan` completes, `main` returns. -/
  | recvDone
  /-- Function `cut_bytes`: the receive reports `more = false`. -/
  | cutSeeClosed
  /-- Function `cut_bytes`: lines 40-45. -/
  | cutTrim
  /-- Functions `cut_bytes` and `save_file` meet on `save_chan`. -/
  | sendSave
  /-- Function `cut_bytes`: the deferred `close(save_chan)`. -/
  | cutClose
  /-- The runtime ends the process after an unrecovered panic. -/
  | cutCrash
  /-- Function `save_file`: lines 57-66; `ok` is the outcome of `os.OpenFile`. -/
  | sinkOpen (ok : Bool)
  /-- Function `save_file`: the receive reports `more = false`. -/
  | sinkSeeClosed
  /-- Function `save_file`: lines 75-76. -/
  | sinkWrite
  /-- Function `save_file`: lines 83-85; `ok` is the outcome of `bfh.Flush()`. -/
  | sinkFlush (ok : Bool)
  /-- Function `save_file`: the deferred `fh.Close()`. -/
  | sinkCloseFh
  /-- Function `save_file`: the deferred `close(done_chan)`. -/
  | sinkCloseDone
  /-- The signal goroutine (lines 90-98): `os.Exit(0)`. -/
  | interrupt
deriving DecidableEq

/-- The newline byte written by `bfh.WriteString("\n")`. -/
def newline : Byte := 10

/-- One step of the process; `none` when the action is not enabled. A line is
carried as the value it has when handed over; `Mem.step` carries it as a slice
header into the buffer of the scanner. -/
def step (o : Options) (s : State) (a : Action) : Option State :=
  match s.exit with
  | some _ => none
  | none =>
    match a with
    | .scan =>
      match s.main, s.input with
      | .scan, line :: rest => some { s with main := .send line, input := rest }
      | .scan, [] =>
        some { s with main := .closeLine,
                      diag := if s.readErr then s.diag ++ [Diag.readError] else s.diag }
      | _, _ => none
    | .sendLine =>
      match s.main, s.cut with
      | .send line, .recv =>
        some { s with main := .scan, cut := .trim line, lineHist := s.lineHist ++ [line] }
      | _, _ => none
    | .closeLine =>
      match s.main with
      | .closeLine => some { s with main := .waitDone, lineClosed := true }
      | _ => none
    | .recvDone =>
      match s.main with
      | .waitDone =>
        if s.doneClosed then some { s with main := .returned, exit := some 0 } else none
      | _ => none
    | .cutSeeClosed =>
      match s.cut with
      | .recv => if s.lineClosed then some { s with cut := .brk } else none
      | _ => none
    | .cutTrim =>
      match s.cut with
      | .trim line =>
        match cut_line o line with
        | some out => some { s with cut := .send out }
        | none => some { s with cut := .panicking }
      | _ => none
    | .sendSave =>
      match s.cut, s.sink with
      | .send line, .recv =>
        some { s with cut := .recv, sink := .write line, saveHist := s.saveHist ++ [line] }
      | _, _ => none
    | .cutClose =>
      match s.cut with
      | .brk => some { s with cut := .returned, saveClosed := true }
      | .panicking => some { s with cut := .unwound, saveClosed := true }
      | _ => none
    | .cutCrash =>
      match s.cut with
      | .unwound => some { s with exit := some 2, diag := s.diag ++ [Diag.panicReport] }
      | _ => none
    | .sinkOpen ok =>
      match s.sink with
      | .opening =>
        if o.Outfile = "-" then some { s with sink := .recv }
        else if ok then some { s with sink := .recv }
        else some { s with exit := some 1, diag := s.diag ++ [Diag.openError] }
      | _ => none
    | .sinkSeeClosed =>
      match s.sink with
      | .recv => if s.saveClosed then some { s with sink := .flush } else none
      | _ => none
    | .sinkWrite =>
      match s.sink with
      | .write line => some { s with sink := .recv, bfh := s.bfh ++ line.data ++ [newline] }
      | _ => none
    | .sinkFlush ok =>
      match s.sink with
      | .flush =>
        some { s with sink := .closeFh, flushed := some ok,
                      diag := if ok then s.diag else s.diag ++ [Diag.flushError] }
      | _ => none
    | .sinkCloseFh =>
      match s.sink with
      | .closeFh => some { s with sink := .closeDone, fhClosed := true }
      | _ => none
    | .sinkCloseDone =>
      match s.sink with
      | .closeDone => some { s with sink := .returned, doneClosed := true }
      | _ => none
    | .interrupt => some { s with exit := some 0 }

/-- Run a schedule; `none` when one of its actions is not enabled. -/
def exec (o : Options) (s : State) : List Action → Option State
  | [] => some s
  | a :: rest =>
    match step o s a with
    | none => none
    | some s1 => exec o s1 rest

/-- The states the process can be in on the given input. -/
def Reachable (o : Options) (input : List Slice) (readErr : Bool) (s : State) : Prop :=
  ∃ acts : List Action, exec o (init input readErr) acts = some s

/-- The bytes `save_file` writes for a sequence of lines: each line followed by
one newline. -/
def frame (lines : List Slice) : List Byte :=
  lines.flatMap (fun line => line.data ++ [newline])

/-- The content of the output target, known once the flush has succeeded. -/
def output (s : State) : Option (List Byte) :=
  if s.flushed = some true then some s.bfh else none

/-- The schedule that takes one line from the scanner to the buffered writer. -/
def lineSchedule : List Action :=
  [.scan, .sendLine, .cutTrim, .sendSave, .sinkWrite]

/-- The schedule of an undisturbed run over `n` lines whose flush has outcome
`flushOk`. -/
def fullSchedule (n : Nat) (flushOk : Bool) : List Action :=
  [.sinkOpen true] ++ (List.replicate n lineSchedule).flatten ++
    [.scan, .closeLine, .cutSeeClosed, .cutClose, .sinkSeeClosed, .sinkFlush flushOk,
     .sinkCloseFh, .sinkCloseDone, .recvDone]

/-- The trim offsets lie within the line: both are non-negative, the leading
one is at most the length and the trailing one at most what remains. -/
def InBounds (o : Options) (line : Slice) : Prop :=
  0 ≤ o.Leadingbytes ∧ 0 ≤ o.Trailingbytes ∧ o.Leadingbytes ≤ (line.len : Int) ∧
    o.Trailingbytes ≤ (line.len : Int) - o.Leadingbytes

instance (o : Options) (line : Slice) : Decidable (InBounds o line) := by
  unfold InBounds
  infer_instance

/-- The first line of the input `"ab\ncd\n"` as the scanner delivers it: a slice
of its zero-filled buffer holding the input, whose capacity reaches to the end of
the buffer (cut here to 8 bytes). -/
def abLine : Slice := ⟨[97, 98], [10, 99, 100, 10, 0, 0]⟩

/-- The second line of the input `"ab\ncd\n"`, a slice of the same buffer. -/
def cdLine : Slice := ⟨[99, 100], [10, 0, 0]⟩

/-- Options `-outfile - -leadingbytes 3`. -/
def leading3 : Options := ⟨"", "-", 3, 0⟩

/-- Options `-outfile - -trailingbytes 4`. -/
def trailing4 : Options := ⟨"", "-", 0, 4⟩

/-! ## Invariants of the pipeline -/

/-- Every line received so far has been forwarded: `save_chan` has carried the
trim of each line carried by `line_chan`, in the same order. -/
def Forwarded (o : Options) (received sent : List Slice) : Prop :=
  received.map (cut_line o) = sent.map some

/-- What holds at each program point of `main`. -/
def MainInv (input : List Slice) (s : State) : Prop :=
  match s.main with
  | .scan => s.lineHist ++ s.input = input ∧ s.lineClosed = false
  | .send line => s.lineHist ++ line :: s.input = input ∧ s.lineClosed = false
  | .closeLine => s.lineHist = input ∧ s.input = [] ∧ s.lineClosed = false
  | .waitDone => s.lineHist = input ∧ s.input = [] ∧ s.lineClosed = true
  | .returned =>
    s.lineHist = input ∧ s.input = [] ∧ s.lineClosed = true ∧ s.doneClosed = true ∧
      s.exit = some 0

/-- What holds at each program point of `cut_bytes`. -/
def CutInv (o : Options) (s : State) : Prop :=
  match s.cut with
  | .recv => Forwarded o s.lineHist s.saveHist ∧ s.saveClosed = false
  | .trim line =>
    s.lineHist.getLast? = some line ∧ Forwarded o s.lineHist.dropLast s.saveHist ∧
      s.saveClosed = false
  | .send out =>
    s.lineHist.getLast?.map (cut_line o) = some (some out) ∧
      Forwarded o s.lineHist.dropLast s.saveHist ∧ s.saveClosed = false
  | .brk => s.lineClosed = true ∧ Forwarded o s.lineHist s.saveHist ∧ s.saveClosed = false
  | .returned => s.lineClosed = true ∧ Forwarded o s.lineHist s.saveHist ∧ s.saveClosed = true
  | .panicking =>
    s.lineHist.getLast?.map (cut_line o) = some none ∧
      Forwarded o s.lineHist.dropLast s.saveHist ∧ s.saveClosed = false
  | .unwound =>
    s.lineHist.getLast?.map (cut_line o) = some none ∧
      Forwarded o s.lineHist.dropLast s.saveHist ∧ s.saveClosed = true

/-- What holds at each program point of `save_file`. -/
def SinkInv (s : State) : Prop :=
  match s.sink with
  | .opening =>
    s.saveHist = [] ∧ s.bfh = [] ∧ s.flushed = none ∧ s.fhClosed = false ∧
      s.doneClosed = false
  | .recv =>
    s.bfh = frame s.saveHist ∧ s.flushed = none ∧ s.fhClosed = false ∧ s.doneClosed = false
  | .write line =>
    s.saveHist.getLast? = some line ∧ s.bfh = frame s.saveHist.dropLast ∧ s.flushed = none ∧
      s.fhClosed = false ∧ s.doneClosed = false
  | .flush =>
    s.saveClosed = true ∧ s.bfh = frame s.saveHist ∧ s.flushed = none ∧ s.fhClosed = false ∧
      s.doneClosed = false
  | .closeFh =>
    s.saveClosed = true ∧ s.bfh = frame s.saveHist ∧ s.flushed.isSome = true ∧
      s.fhClosed = false ∧ s.doneClosed = false
  | .closeDone =>
    s.saveClosed = true ∧ s.bfh = frame s.saveHist ∧ s.flushed.isSome = true ∧
      s.fhClosed = true ∧ s.doneClosed = false
  | .returned =>
    s.saveClosed = true ∧ s.bfh = frame s.saveHist ∧ s.flushed.isSome = true ∧
      s.fhClosed = true ∧ s.doneClosed = true

/-- The invariant of the pipeline on the given input. -/
def Inv (o : Options) (input : List Slice) (s : State) : Prop :=
  MainInv input s ∧ CutInv o s ∧ SinkInv s

/-! ## The pipeline over the scanner's buffer

Function `main` sends `scanner.Bytes()` itself (line 123): a slice header into
the buffer of the scanner, not a copy. Here the lines in flight are slice
headers, the buffer is shared memory, and `scanner.Scan()` shifts and refills
it as `bufio.Scanner` does. -/

/-- A Go slice header: the backing array (its index in the heap), the offset of
the first byte, `len` and `cap`. -/
structure View where
  arr : Nat
  off : Nat
  len : Nat
  cap : Nat
deriving DecidableEq

/-- The byte arrays allocated so far. -/
abbrev Heap := List (List Byte)

/-- The slice a header denotes in the memory as it is now. -/
def View.read (h : Heap) (v : View) : Slice :=
  ⟨((h.getD v.arr []).drop v.off).take v.len,
    ((h.getD v.arr []).drop (v.off + v.len)).take (v.cap - v.len)⟩

/-- The trim of lines 40-45 on a slice header: both slice expressions keep the
end of the capacity where it is, so the header of the result follows from its
`len` and `cap`. -/
def cut_view (o : Options) (h : Heap) (v : View) : Option View :=
  (cut_line o (v.read h)).map (fun out => ⟨v.arr, v.off + v.cap - out.cap, out.len, out.cap⟩)

/-- Line 120: `buf := make([]byte, 0, 64*1024)`. -/
def startBufSize : Nat := 65536

/-- Line 121: `scanner.Buffer(buf, 1024*1024)`. -/
def maxTokenSize : Nat := 1048576

/-- The fields of `bufio.Scanner` that `Scan` works on. Modelled on the Go
standard library, which is not part of this repository: `arr` is the array
behind `s.buf`, `start` and `stop` are `s.start` and `s.end`, `eof` is
`s.err != nil`, `failed` is `scanner.Err() != nil`. -/
structure Scanner where
  arr : Nat
  start : Nat
  stop : Nat
  eof : Bool
  failed : Bool
deriving DecidableEq

/-- Go `copy(buf[pos:], bytes)` for bytes that fit. -/
def writeAt (buf : List Byte) (pos : Nat) (bytes : List Byte) : List Byte :=
  buf.take pos ++ bytes ++ buf.drop (pos + bytes.length)

/-- Function `dropCR` of `bufio`: the data without a final carriage return. -/
def dropCR (data : List Byte) : List Byte :=
  if data.getLast? = some 13 then data.dropLast else data

/-- Function `bufio.ScanLines`: the number of bytes to advance and, when there
is a token, its length; the token is a prefix of `data`. -/
def scanLines (data : List Byte) (atEOF : Bool) : Nat × Option Nat :=
  if atEOF && data.isEmpty then (0, none)
  else if newline ∈ data then
    (data.indexOf newline + 1, some (dropCR (data.take (data.indexOf newline))).length)
  else if atEOF then (data.length, some (dropCR data).length)
  else (0, none)

/-- How one round of the loop of `Scan` ends. -/
inductive ScanOutcome where
  /-- `Scan` returns true and `scanner.Bytes()` is the header. -/
  | token (v : View)
  /-- `Scan` returns false. -/
  | stop
  /-- The loop goes round again. -/
  | again
deriving DecidableEq

/-- The part of the round of `Scan` that reads: `s.r.Read(s.buf[s.end:])` hands
over `offered + 1` bytes at most, or reports the end of the input. -/
def scanRead (sc : Scanner) (h : Heap) (stdin : List Byte) (readErr : Bool) (offered : Nat) :
    Scanner × Heap × List Byte × ScanOutcome :=
  if stdin = [] then ({ sc with eof := true, failed := readErr }, h, stdin, .again)
  else
    let buf := h.getD sc.arr []
    let bytes := stdin.take (min (offered + 1) (buf.length - sc.stop))
    ({ sc with stop := sc.stop + bytes.length }, h.set sc.arr (writeAt buf sc.stop bytes),
      stdin.drop bytes.length, .again)

/-- The part of the round of `Scan` that makes room: a full buffer is replaced by
a new array of twice the size, up to `maxTokenSize`, beyond which the scanner
gives up with `ErrTooLong`. -/
def scanGrow (sc : Scanner) (h : Heap) (stdin : List Byte) (readErr : Bool) (offered : Nat) :
    Scanner × Heap × List Byte × ScanOutcome :=
  let buf := h.getD sc.arr []
  if sc.stop = buf.length then
    if buf.length ≥ maxTokenSize then ({ sc with eof := true, failed := true }, h, stdin, .stop)
    else
      let data := (buf.drop sc.start).take (sc.stop - sc.start)
      let newBuf := data ++ List.replicate (min (buf.length * 2) maxTokenSize - data.length) 0
      scanRead { sc with arr := h.length, start := 0, stop := data.length } (h ++ [newBuf])
        stdin readErr offered
  else scanRead sc h stdin readErr offered

/-- The part of the round of `Scan` that shifts: with `s.start > 0` and the
buffer full or more than half of it consumed, the unread data is copied to the
beginning of the buffer, over what was there. -/
def scanShift (sc : Scanner) (h : Heap) (stdin : List Byte) (readErr : Bool) (offered : Nat) :
    Scanner × Heap × List Byte × ScanOutcome :=
  let buf := h.getD sc.arr []
  if sc.start > 0 ∧ (sc.stop = buf.length ∨ sc.start > buf.length / 2) then
    scanGrow { sc with start := 0, stop := sc.stop - sc.start }
      (h.set sc.arr (writeAt buf 0 ((buf.drop sc.start).take (sc.stop - sc.start))))
      stdin readErr offered
  else scanGrow sc h stdin readErr offered

/-- One round of the loop of `bufio.Scanner.Scan`, modelled on the Go standard
library: a token from what the buffer holds, else the end of the scan once the
input has ended, else shift, grow and read. -/
def scanRound (sc : Scanner) (h : Heap) (stdin : List Byte) (readErr : Bool) (offered : Nat) :
    Scanner × Heap × List Byte × ScanOutcome :=
  let buf := h.getD sc.arr []
  let split :=
    if sc.stop > sc.start ∨ sc.eof = true then
      scanLines ((buf.drop sc.start).take (sc.stop - sc.start)) sc.eof
    else (0, none)
  match split.2 with
  | some len =>
    ({ sc with start := sc.start + split.1 }, h, stdin,
      .token ⟨sc.arr, sc.start, len, buf.length - sc.start⟩)
  | none =>
    if sc.eof then ({ sc with start := 0, stop := 0 }, h, stdin, .stop)
    else scanShift sc h stdin readErr offered

/-- A line of 33000 bytes `a`: more than half of the scanner's buffer. -/
def longLine : List Byte := List.replicate 33000 97

/-- A line of 100 bytes `b`. -/
def shortLine : List Byte := List.replicate 100 98

/-- The input of `longLine`, a newline, and `shortLine` with no newline after it. -/
def racyInput : List Byte := longLine ++ newline :: shortLine

namespace Mem

/-- Where `main` stands in lines 117-133. -/
inductive MainPc where
  /-- Inside `scanner.Scan()` (line 122). -/
  | scan
  /-- Blocked in `line_chan <- scanner.Bytes()` (line 123). -/
  | send (line : View)
  /-- The scan loop has ended; `close(line_chan)` comes next (line 131). -/
  | closeLine
  /-- Blocked in `<-done_chan` (line 133). -/
  | waitDone
  /-- Function `main` has returned. -/
  | returned
deriving DecidableEq

/-- Where `cut_bytes` stands in lines 33-51. -/
inductive CutPc where
  /-- Blocked in `line, more := <-line_chan` (line 38). -/
  | recv
  /-- Received a line with `more = true`; lines 40-45 come next. -/
  | trim (line : View)
  /-- Blocked in `save_chan <- line` (line 46). -/
  | send (line : View)
  /-- Received `more = false` and left the loop. -/
  | brk
  /-- A slice expression panicked; the deferred call runs next. -/
  | panicking
  /-- Function `cut_bytes` has returned. -/
  | returned
  /-- The deferred call has run during the panic. -/
  | unwound
deriving DecidableEq

/-- Where `save_file` stands in lines 53-86. -/
inductive SinkPc where
  /-- Choosing or opening the output target (lines 57-66). -/
  | opening
  /-- Blocked in `line, more := <-save_chan` (line 73). -/
  | recv
  /-- Received a line with `more = true`; lines 75-76 come next. -/
  | write (line : View)
  /-- Received `more = false` and left the loop; `bfh.Flush()` comes next. -/
  | flush
  /-- The deferred `fh.Close()` comes next. -/
  | closeFh
  /-- The deferred `close(done_chan)` comes next. -/
  | closeDone
  /-- Function `save_file` has returned. -/
  | returned
deriving DecidableEq

/-- The state of the running process with its memory. `lineHist` records the
bytes of each line at the moment `main` handed it over. -/
structure State where
  /-- The bytes of the standard input not yet read. -/
  stdin : List Byte
  /-- Whether the input ends with a read error instead of end of file. -/
  readErr : Bool
  heap : Heap
  sc : Scanner
  main : MainPc
  cut : CutPc
  sink : SinkPc
  lineClosed : Bool
  saveClosed : Bool
  doneClosed : Bool
  lineHist : List (List Byte)
  bfh : List Byte
  flushed : Option Bool
  fhClosed : Bool
  diag : List Diag
  exit : Option Nat
deriving DecidableEq

/-- The state after line 121: channels made, both goroutines started, the
scanner set up over a zeroed buffer of `startBufSize` bytes. -/
def init (stdin : List Byte) (readErr : Bool) : State :=
  { stdin := stdin, readErr := readErr, heap := [List.replicate startBufSize 0],
    sc := ⟨0, 0, 0, false, false⟩, main := .scan, cut := .recv, sink := .opening,
    lineClosed := false, saveClosed := false, doneClosed := false, lineHist := [],
    bfh := [], flushed := none, fhClosed := false, diag := [], exit := none }

/-- One scheduling choice, as `GoCut.Action`; `scan` is one round of the loop of
`scanner.Scan()` and carries what the read of that round is offered. -/
inductive Action where
  | scan (offered : Nat)
  | sendLine
  | closeLine
  | recvDone
  | cutSeeClosed
  | cutTrim
  | sendSave
  | cutClose
  | cutCrash
  | sinkOpen (ok : Bool)
  | sinkSeeClosed
  | sinkWrite
  | sinkFlush (ok : Bool)
  | sinkCloseFh
  | sinkCloseDone
  | interrupt
deriving DecidableEq

/-- One step of the process over its memory; `none` when the action is not
enabled. Apart from `scan`, `cutTrim` and `sinkWrite`, which touch the memory, the
steps are those of `GoCut.step`. -/
def step (o : Options) (s : State) (a : Action) : Option State :=
  match s.exit with
  | some _ => none
  | none =>
    match a with
    | .scan offered =>
      match s.main with
      | .scan =>
        match scanRound s.sc s.heap s.stdin s.readErr offered with
        | (sc, heap, stdin, .token line) =>
          some { s with sc := sc, heap := heap, stdin := stdin, main := .send line }
        | (sc, heap, stdin, .again) => some { s with sc := sc, heap := heap, stdin := stdin }
        | (sc, heap, stdin, .stop) =>
          some { s with sc := sc, heap := heap, stdin := stdin, main := .closeLine,
                        diag := if sc.failed then s.diag ++ [Diag.readError] else s.diag }
      | _ => none
    | .sendLine =>
      match s.main, s.cut with
      | .send line, .recv =>
        some { s with main := .scan, cut := .trim line,
                      lineHist := s.lineHist ++ [(line.read s.heap).data] }
      | _, _ => none
    | .closeLine =>
      match s.main with
      | .closeLine => some { s with main := .waitDone, lineClosed := true }
      | _ => none
    | .recvDone =>
      match s.main with
      | .waitDone =>
        if s.doneClosed then some { s with main := .returned, exit := some 0 } else none
      | _ => none
    | .cutSeeClosed =>
      match s.cut with
      | .recv => if s.lineClosed then some { s with cut := .brk } else none
      | _ => none
    | .cutTrim =>
      match s.cut with
      | .trim line =>
        match cut_view o s.heap line with
        | some out => some { s with cut := .send out }
        | none => some { s with cut := .panicking }
      | _ => none
    | .sendSave =>
      match s.cut, s.sink with
      | .send line, .recv => some { s with cut := .recv, sink := .write line }
      | _, _ => none
    | .cutClose =>
      match s.cut with
      | .brk => some { s with cut := .returned, saveClosed := true }
      | .panicking => some { s with cut := .unwound, saveClosed := true }
      | _ => none
    | .cutCrash =>
      match s.cut with
      | .unwound => some { s with exit := some 2, diag := s.diag ++ [Diag.panicReport] }
      | _ => none
    | .sinkOpen ok =>
      match s.sink with
      | .opening =>
        if o.Outfile = "-" then some { s with sink := .recv }
        else if ok then some { s with sink := .recv }
        else some { s with exit := some 1, diag := s.diag ++ [Diag.openError] }
      | _ => none
    | .sinkSeeClosed =>
      match s.sink with
      | .recv => if s.saveClosed then some { s with sink := .flush } else none
      | _ => none
    | .sinkWrite =>
      match s.sink with
      | .write line =>
        some { s with sink := .recv, bfh := s.bfh ++ (line.read s.heap).data ++ [newline] }
      | _ => none
    | .sinkFlush ok =>
      match s.sink with
      | .flush =>
        some { s with sink := .closeFh, flushed := some ok,
                      diag := if ok then s.diag else s.diag ++ [Diag.flushError] }
      | _ => none
    | .sinkCloseFh =>
      match s.sink with
      | .closeFh => some { s with sink := .closeDone, fhClosed := true }
      | _ => none
    | .sinkCloseDone =>
      match s.sink with
      | .closeDone => some { s with sink := .returned, doneClosed := true }
      | _ => none
    | .interrupt => some { s with exit := some 0 }

/-- Run a schedule; `none` when one of its actions is not enabled. -/
def exec (o : Options) (s : State) : List Action → Option State
  | [] => some s
  | a :: rest =>
    match step o s a with
    | none => none
    | some s1 => exec o s1 rest

/-- The content of the output target, known once the flush has succeeded. -/
def output (s : State) : Option (List Byte) :=
  if s.flushed = some true then some s.bfh else none

/-- A schedule for an input of two lines read at once, in which `main` goes on
scanning the second line while the first is still with `cut_bytes`; the first
read is offered `offered + 1` bytes. -/
def racySchedule (offered : Nat) : List Action :=
  [.sinkOpen true, .scan offered, .scan 0, .sendLine, .scan 0, .scan 0, .cutTrim, .sendSave,
    .sinkWrite, .sendLine, .cutTrim, .sendSave, .sinkWrite, .scan 0, .closeLine,
    .cutSeeClosed, .cutClose, .sinkSeeClosed, .sinkFlush true, .sinkCloseFh, .sinkCloseDone,
    .recvDone]

/-- The schedule for the same input in which every line is written before
`main` scans on. -/
def orderlySchedule (offered : Nat) : List Action :=
  [.sinkOpen true, .scan offered, .scan 0, .sendLine, .cutTrim, .sendSave, .sinkWrite,
    .scan 0, .scan 0, .sendLine, .cutTrim, .sendSave, .sinkWrite, .scan 0, .closeLine,
    .cutSeeClosed, .cutClose, .sinkSeeClosed, .sinkFlush true, .sinkCloseFh, .sinkCloseDone,
    .recvDone]

end Mem

/-! ## The trim of one line -/

theorem sliceLow_ok (s : Slice) (lo : Int) (h0 : 0 ≤ lo) (h1 : lo ≤ (s.len : Int)) :
    s.sliceLow lo = some ⟨s.data.drop lo.toNat, s.spare⟩ := by
  simp [Slice.sliceLow, h0, h1]

theorem sliceHigh_within (s : Slice) (hi : Int) (h0 : 0 ≤ hi) (h1 : hi ≤ (s.len : Int)) :
    (s.sliceHigh hi).map Slice.data = some (s.data.take hi.toNat) := by
  have hcap : hi ≤ (s.cap : Int) := by
    simp only [Slice.cap, Slice.len] at *
    omega
  have hn : hi.toNat ≤ s.data.length := by
    simp only [Slice.len] at h1
    omega
  simp [Slice.sliceHigh, h0, hcap, List.take_append_of_le_length hn]

/-- Within the bounds of the line the trim does not panic and yields the bytes
the specification describes. -/
theorem cut_line_data (o : Options) (line : Slice)
    (hL : 0 ≤ o.Leadingbytes) (hT : 0 ≤ o.Trailingbytes)
    (hLlen : o.Leadingbytes ≤ (line.len : Int))
    (hTlen : o.Trailingbytes ≤ (line.len : Int) - o.Leadingbytes) :
    (cut_line o line).map Slice.data
      = some (trimSpec o.Leadingbytes o.Trailingbytes line.data) := by
  have hdrop : ((line.data.drop o.Leadingbytes.toNat).length : Int)
      = (line.len : Int) - o.Leadingbytes := by
    simp only [Slice.len, List.length_drop] at *
    omega
  by_cases h1 : o.Leadingbytes > 0
  · have hne : o.Leadingbytes ≠ 0 := by omega
    by_cases h2 : o.Trailingbytes > 0
    · have hne2 : o.Trailingbytes ≠ 0 := by omega
      simp only [cut_line, h1, h2, if_true, sliceLow_ok line _ hL hLlen, trimSpec, hne, hne2,
        if_false]
      apply sliceHigh_within _ _ hT
      simp only [Slice.len]
      omega
    · have he2 : o.Trailingbytes = 0 := by omega
      simp [cut_line, h1, sliceLow_ok line _ hL hLlen, trimSpec, hne, he2]
  · have he : o.Leadingbytes = 0 := by omega
    by_cases h2 : o.Trailingbytes > 0
    · have hne2 : o.Trailingbytes ≠ 0 := by omega
      simp only [cut_line, he, gt_iff_lt, lt_self_iff_false, if_false, h2, if_true, trimSpec,
        hne2]
      apply sliceHigh_within _ _ hT
      omega
    · have he2 : o.Trailingbytes = 0 := by omega
      simp [cut_line, he, trimSpec, he2]

/-! ## The invariant holds in every reachable state -/

@[simp] theorem frame_nil : frame [] = [] := rfl

@[simp] theorem frame_concat (lines : List Slice) (line : Slice) :
    frame (lines ++ [line]) = frame lines ++ line.data ++ [newline] := by
  simp [frame, List.flatMap_append]

theorem frame_dropLast (lines : List Slice) (line : Slice)
    (hlast : lines.getLast? = some line) :
    frame lines.dropLast ++ (line.data ++ [newline]) = frame lines := by
  have hsplit : lines.dropLast ++ [line] = lines :=
    List.dropLast_append_getLast? line (by simp [hlast])
  rw [← List.append_assoc, ← frame_concat, hsplit]

theorem forwarded_snoc (o : Options) (received sent : List Slice) (out : Slice)
    (hlast : received.getLast?.map (cut_line o) = some (some out))
    (h : Forwarded o received.dropLast sent) : Forwarded o received (sent ++ [out]) := by
  cases hl : received.getLast? with
  | none => simp [hl] at hlast
  | some line =>
    have hsplit : received.dropLast ++ [line] = received :=
      List.dropLast_append_getLast? line (by simp [hl])
    simp only [hl, Option.map_some', Option.some.injEq] at hlast
    unfold Forwarded at *
    rw [← hsplit, List.map_append, h]
    simp [hlast]

theorem inv_init (o : Options) (input : List Slice) (readErr : Bool) :
    Inv o input (init input readErr) := by
  simp [Inv, MainInv, CutInv, SinkInv, init, Forwarded]

set_option maxHeartbeats 4000000 in
theorem inv_step (o : Options) (input : List Slice) (s s1 : State) (a : Action)
    (hs : Inv o input s) (h : step o s a = some s1) : Inv o input s1 := by
  obtain ⟨inp, re, mpc, cpc, spc, lc, sc, dc, lh, sh, bfh, fl, fc, dg, ex⟩ := s
  obtain ⟨hm, hc, hk⟩ := hs
  cases ex with
  | some e => simp [step] at h
  | none =>
    cases a <;> simp only [step] at h
    all_goals
      repeat' (split at h)
    all_goals
      first
        | (simp at h; done)
        | (simp only [Option.some.injEq] at h
           subst h
           refine ⟨?_, ?_, ?_⟩)
    all_goals
      first
        | exact hm
        | exact hc
        | exact hk
        | (simp only [CutInv] at hc ⊢
           exact ⟨forwarded_snoc o _ _ _ hc.1 hc.2.1, hc.2.2⟩)
        | (clear hc hk
           simp only [MainInv] at hm ⊢
           (try cases mpc) <;> simp_all
           done)
        | (clear hm hk
           simp only [CutInv] at hc ⊢
           (try cases cpc) <;> simp_all [List.dropLast_concat]
           done)
        | (clear hm hc
           simp only [SinkInv] at hk ⊢
           (try cases spc) <;> simp_all [frame_dropLast])

theorem inv_exec (o : Options) (input : List Slice) (acts : List Action) :
    ∀ s s1 : State, Inv o input s → exec o s acts = some s1 → Inv o input s1 := by
  induction acts with
  | nil =>
    intro s s1 hs h
    simp only [exec, Option.some.injEq] at h
    exact h ▸ hs
  | cons a rest ih =>
    intro s s1 hs h
    simp only [exec] at h
    cases hstep : step o s a with
    | none => simp [hstep] at h
    | some s2 =>
      simp only [hstep] at h
      exact ih s2 s1 (inv_step o input s s2 a hs hstep) h

theorem inv_reachable (o : Options) (input : List Slice) (readErr : Bool) (s : State)
    (h : Reachable o input readErr s) : Inv o input s := by
  obtain ⟨acts, hacts⟩ := h
  exact inv_exec o input acts _ s (inv_init o input readErr) hacts

theorem exec_append (o : Options) (a b : List Action) :
    ∀ s : State, exec o s (a ++ b) = (exec o s a).bind (fun s1 => exec o s1 b) := by
  induction a with
  | nil => intro s; simp [exec]
  | cons x rest ih =>
    intro s
    simp only [List.cons_append, exec]
    cases step o s x with
    | none => simp
    | some s2 => simpa using ih s2

theorem reachable_exec (o : Options) (input : List Slice) (readErr : Bool) (s s1 : State)
    (acts : List Action) (h : Reachable o input readErr s) (h1 : exec o s acts = some s1) :
    Reachable o input readErr s1 := by
  obtain ⟨pre, hpre⟩ := h
  exact ⟨pre ++ acts, by simp [exec_append, hpre, h1]⟩

/-! ## An undisturbed run completes -/

/-- Once `done_chan` is closed, `save_file` has returned after the flush and
the close of the target, and `save_chan` is closed. -/
theorem done_sink (s : State) (h : SinkInv s) (hd : s.doneClosed = true) :
    s.sink = .returned ∧ s.saveClosed = true ∧ s.bfh = frame s.saveHist ∧
      s.flushed.isSome = true ∧ s.fhClosed = true := by
  unfold SinkInv at h
  split at h <;> simp_all

/-- Once `save_chan` is closed, `cut_bytes` has either returned after seeing
`line_chan` closed, with every line forwarded, or it has panicked. -/
theorem closed_cut (o : Options) (s : State) (h : CutInv o s) (hc : s.saveClosed = true) :
    (s.cut = .returned ∧ s.lineClosed = true ∧ Forwarded o s.lineHist s.saveHist) ∨
      (s.cut = .unwound ∧ s.lineHist.getLast?.map (cut_line o) = some none) := by
  unfold CutInv at h
  split at h <;> simp_all

/-- Once `line_chan` is closed, `main` is past the scan loop and every line of
the input has been handed over. -/
theorem closed_main (input : List Slice) (s : State) (h : MainInv input s)
    (hc : s.lineClosed = true) :
    (s.main = .waitDone ∨ s.main = .returned) ∧ s.input = [] ∧ s.lineHist = input := by
  unfold MainInv at h
  split at h <;> simp_all

/-- Claim C1: for every line and every configuration with both offsets
non-negative, the leading one at most the length of the line and the trailing one
at most what remains, the line `cut_bytes` emits is the input with its first
`leadingBytes` bytes dropped (skipped when 0) and then cut to its first
`trailingBytes` bytes (skipped when 0); `"abcdef"` with 2 and 0 gives `"cdef"`,
with 0 and 3 gives `"abc"`. -/
theorem cut_bytes_trims_within_bounds (o : Options) (line : Slice)
    (hL : 0 ≤ o.Leadingbytes) (hT : 0 ≤ o.Trailingbytes)
    (hLlen : o.Leadingbytes ≤ (line.len : Int))
    (hTlen : o.Trailingbytes ≤ (line.len : Int) - o.Leadingbytes) :
    (cut_line o line).map Slice.data
        = some (trimSpec o.Leadingbytes o.Trailingbytes line.data) ∧
      (∀ spare : List Byte,
        (cut_line ⟨o.Cpuprof, o.Outfile, 2, 0⟩ ⟨abcdef, spare⟩).map Slice.data
          = some [99, 100, 101, 102]) ∧
      (∀ spare : List Byte,
        (cut_line ⟨o.Cpuprof, o.Outfile, 0, 3⟩ ⟨abcdef, spare⟩).map Slice.data
          = some [97, 98, 99]) := by
  refine ⟨cut_line_data o line hL hT hLlen hTlen, ?_, ?_⟩
  · intro spare
    have := cut_line_data ⟨o.Cpuprof, o.Outfile, 2, 0⟩ ⟨abcdef, spare⟩
      (by norm_num) (by norm_num) (by norm_num [Slice.len, abcdef])
      (by norm_num [Slice.len, abcdef])
    simpa [trimSpec, abcdef] using this
  · intro spare
    have := cut_line_data ⟨o.Cpuprof, o.Outfile, 0, 3⟩ ⟨abcdef, spare⟩
      (by norm_num) (by norm_num) (by norm_num [Slice.len, abcdef])
      (by norm_num [Slice.len, abcdef])
    simpa [trimSpec, abcdef] using this

/-- The trim of C1 at `"abcdef"` with `leadingbytes=2`, `trailingbytes=3`. -/
theorem cut_bytes_trims_within_bounds_witness :
    ((0 : Int) ≤ 2 ∧ (0 : Int) ≤ 3 ∧ (2 : Int) ≤ 6 ∧ (3 : Int) ≤ 6 - 2) ∧
      (cut_line ⟨"", "-", 2, 3⟩ ⟨abcdef, [10]⟩).map Slice.data = some [99, 100, 101] :=
  ⟨by decide,
    (cut_bytes_trims_within_bounds ⟨"", "-", 2, 3⟩ ⟨abcdef, [10]⟩
      (by decide) (by decide) (by decide) (by decide)).1⟩

/-- Claim C2 as stated fails: `"abcdef"` with `leadingbytes=1` and
`trailingbytes=4` satisfies `0 < 1 <= 4 <= 6`, yet `cut_bytes` emits `"bcde"`,
which is not `line[1:4] = "bcd"`. -/
theorem combined_trim_counterexample :
    ((0 : Int) < 1 ∧ (1 : Int) ≤ 4 ∧ (4 : Int) ≤ ((⟨abcdef, []⟩ : Slice).len : Int)) ∧
      (cut_line ⟨"", "-", 1, 4⟩ ⟨abcdef, []⟩).map Slice.data = some [98, 99, 100, 101] ∧
      byteRange 1 4 abcdef = [98, 99, 100] ∧
      (cut_line ⟨"", "-", 1, 4⟩ ⟨abcdef, []⟩).map Slice.data ≠ some (byteRange 1 4 abcdef) := by
  decide

/-- Claim C2, amended: for every line and offsets with
`0 < leadingBytes <= trailingBytes` and `leadingBytes + trailingBytes <= len(line)`,
the line `cut_bytes` emits is `line[leadingBytes : leadingBytes + trailingBytes]`:
the trailing offset counts from the end of the leading trim. -/
theorem combined_trim_amended (o : Options) (line : Slice)
    (hL : 0 < o.Leadingbytes) (hLT : o.Leadingbytes ≤ o.Trailingbytes)
    (hlen : o.Leadingbytes + o.Trailingbytes ≤ (line.len : Int)) :
    (cut_line o line).map Slice.data
      = some (byteRange o.Leadingbytes (o.Leadingbytes + o.Trailingbytes) line.data) := by
  rw [cut_line_data o line (by omega) (by omega) (by omega) (by omega)]
  have h1 : o.Leadingbytes ≠ 0 := by omega
  have h2 : o.Trailingbytes ≠ 0 := by omega
  have h3 : (o.Leadingbytes + o.Trailingbytes).toNat
      = o.Leadingbytes.toNat + o.Trailingbytes.toNat := by omega
  simp only [trimSpec, h1, h2, if_false, byteRange, h3, Option.some.injEq]
  rw [List.drop_take, Nat.add_sub_cancel_left]

/-- The amended C2 at `"abcdef"` with `leadingbytes=1`, `trailingbytes=4`: the
output is `"bcde"`. -/
theorem combined_trim_amended_witness :
    ((0 : Int) < 1 ∧ (1 : Int) ≤ 4 ∧ (1 : Int) + 4 ≤ ((⟨abcdef, []⟩ : Slice).len : Int)) ∧
      (cut_line ⟨"", "-", 1, 4⟩ ⟨abcdef, []⟩).map Slice.data = some [98, 99, 100, 101] :=
  ⟨by decide,
    combined_trim_amended ⟨"", "-", 1, 4⟩ ⟨abcdef, []⟩ (by decide) (by decide) (by decide)⟩

/-- Claim C3 fails on the code: on the input `"ab\ncd\n"` with `leadingbytes=3`
the slice `line[3:]` panics on the line `"ab"`, `cut_bytes` forwards nothing, and
the run can end with the process aborted (exit status 2) and nothing written;
`line[:9]` panics as well, 9 being more than the capacity behind the line. -/
theorem short_line_panics :
    cut_line leading3 abLine = none ∧
      (exec leading3 (init [abLine, cdLine] false)
          [.sinkOpen true, .scan, .sendLine, .cutTrim, .cutClose, .cutCrash]).map
        (fun s => (s.exit, s.saveHist, s.bfh, s.doneClosed))
        = some (some 2, [], [], false) ∧
      abLine.cap = 8 ∧ cut_line ⟨"", "-", 0, 9⟩ abLine = none := by
  decide

/-- Claim C10 fails on the code: on the input `"ab\ncd\n"` with `trailingbytes=4`
the line `"ab"` is emitted as `"ab\nc"`, four bytes of which two lie behind the
end of the line, and the line `"cd"` as `"cd\n"` plus a zero byte; the output of
the run is `"ab\nc\ncd\n\x00\n"`. -/
theorem trailing_reslice_leaks :
    abLine.len = 2 ∧
      (cut_line trailing4 abLine).map Slice.data = some [97, 98, 10, 99] ∧
      (cut_line trailing4 cdLine).map Slice.data = some [99, 100, 10, 0] ∧
      (exec trailing4 (init [abLine, cdLine] false) (fullSchedule 2 true)).bind output
        = some [97, 98, 10, 99, 10, 99, 100, 10, 0, 10] := by
  decide

/-! ## The pipeline: claims about whole runs -/

/-- The order of shutdown in every run: `line_chan` is closed only with `main`
past the scan loop and the input exhausted; `save_chan` is closed only with
`cut_bytes` returned after seeing `line_chan` closed and forwarding every line,
or else unwinding a panic; `done_chan` is closed only with `save_file` returned
after seeing `save_chan` closed, flushing and closing the target. -/
theorem shutdown_order (o : Options) (input : List Slice) (readErr : Bool) (s : State)
    (hs : Reachable o input readErr s) :
    (s.lineClosed = true →
        (s.main = .waitDone ∨ s.main = .returned) ∧ s.input = [] ∧ s.lineHist = input) ∧
      (s.saveClosed = true →
        (s.cut = .returned ∧ s.lineClosed = true ∧ Forwarded o s.lineHist s.saveHist) ∨
          (s.cut = .unwound ∧ s.lineHist.getLast?.map (cut_line o) = some none)) ∧
      (s.doneClosed = true →
        s.sink = .returned ∧ s.saveClosed = true ∧ s.bfh = frame s.saveHist ∧
          s.flushed.isSome = true ∧ s.fhClosed = true) := by
  obtain ⟨hm, hc, hk⟩ := inv_reachable o input readErr s hs
  exact ⟨closed_main input s hm, closed_cut o s hc, done_sink s hk⟩

/-- Claim C7 fails on the code: on the input `"ab\ncd\n"` with `leadingbytes=3`
the panic of `line[3:]` runs the deferred `close(save_chan)` while `line_chan` is
still open and the received line has not been forwarded; `save_file` can then
see the closure, flush and close `done_chan` with `main` still in its scan loop. -/
theorem panic_closes_save_chan_early :
    (∃ s, exec leading3 (init [abLine, cdLine] false)
          [.sinkOpen true, .scan, .sendLine, .cutTrim, .cutClose] = some s ∧
        s.saveClosed = true ∧ s.lineClosed = false ∧ s.cut = .unwound ∧
        s.lineHist = [abLine] ∧ s.saveHist = [] ∧ s.exit = none) ∧
      (∃ s, exec leading3 (init [abLine, cdLine] false)
          [.sinkOpen true, .scan, .sendLine, .cutTrim, .cutClose, .sinkSeeClosed,
            .sinkFlush true, .sinkCloseFh, .sinkCloseDone] = some s ∧
        s.doneClosed = true ∧ s.lineClosed = false ∧ s.main = .scan ∧ s.bfh = [] ∧
        s.exit = none) :=
  ⟨⟨_, rfl, rfl, rfl, rfl, rfl, rfl, rfl⟩, ⟨_, rfl, rfl, rfl, rfl, rfl, rfl⟩⟩

/-- Claim C9: in every run, with the output target open and `save_file` at its
receive, once `save_chan` is closed `save_file` flushes, closes the output target
and then closes `done_chan` and returns, whether the flush succeeds or fails; a
failed flush only adds a message to the diagnostic stream and does not end the
process; the target is closed while `done_chan` is still open. -/
theorem flush_failure_is_not_fatal (o : Options) (input : List Slice) (readErr : Bool)
    (s : State) (hs : Reachable o input readErr s) (hexit : s.exit = none)
    (hsink : s.sink = .recv) (hclosed : s.saveClosed = true) (flushOk : Bool) :
    ∃ s1 s2 s3, exec o s [.sinkSeeClosed, .sinkFlush flushOk] = some s1 ∧
      step o s1 .sinkCloseFh = some s2 ∧ step o s2 .sinkCloseDone = some s3 ∧
      s1.flushed = some flushOk ∧ s1.exit = none ∧
      s1.diag = (if flushOk then s.diag else s.diag ++ [Diag.flushError]) ∧
      s1.fhClosed = false ∧ s1.doneClosed = false ∧
      s2.fhClosed = true ∧ s2.doneClosed = false ∧
      s3.fhClosed = true ∧ s3.doneClosed = true ∧ s3.sink = .returned ∧ s3.exit = none ∧
      s3.diag = s1.diag := by
  have hk := (inv_reachable o input readErr s hs).2.2
  obtain ⟨inp, re, mpc, cpc, spc, lc, sc, dc, lh, sh, bfh, fl, fc, dg, ex⟩ := s
  simp only at hexit hsink hclosed
  subst hexit hsink hclosed
  simp only [SinkInv] at hk
  obtain ⟨_, _, hfc, hdc⟩ := hk
  subst hfc hdc
  cases flushOk <;> simp [exec, step]

/-- Claim C9 after the line `"ab"` was written to the buffered writer of the
file `out.txt`, with a failing flush: the completion signal fires after the close
of the target, and the failure is only reported. -/
theorem flush_failure_is_not_fatal_witness :
    ∃ s, Reachable ⟨"", "out.txt", 0, 0⟩ [abLine] false s ∧ s.exit = none ∧ s.sink = .recv ∧
      s.saveClosed = true ∧ s.bfh = [97, 98, 10] ∧
      ∃ s1 s2 s3, exec ⟨"", "out.txt", 0, 0⟩ s [.sinkSeeClosed, .sinkFlush false] = some s1 ∧
        step ⟨"", "out.txt", 0, 0⟩ s1 .sinkCloseFh = some s2 ∧
        step ⟨"", "out.txt", 0, 0⟩ s2 .sinkCloseDone = some s3 ∧
        s1.flushed = some false ∧ s1.exit = none ∧
        s1.diag = (if false then s.diag else s.diag ++ [Diag.flushError]) ∧
        s1.fhClosed = false ∧ s1.doneClosed = false ∧
        s2.fhClosed = true ∧ s2.doneClosed = false ∧
        s3.fhClosed = true ∧ s3.doneClosed = true ∧ s3.sink = .returned ∧ s3.exit = none ∧
        s3.diag = s1.diag := by
  have hr : Reachable ⟨"", "out.txt", 0, 0⟩ [abLine] false
      ⟨[], false, .waitDone, .returned, .recv, true, true, false, [abLine], [abLine],
        [97, 98, 10], none, false, [], none⟩ :=
    ⟨[.sinkOpen true, .scan, .sendLine, .cutTrim, .sendSave, .sinkWrite, .scan, .closeLine,
      .cutSeeClosed, .cutClose], by decide⟩
  exact ⟨_, hr, rfl, rfl, rfl, rfl, flush_failure_is_not_fatal _ _ _ _ hr rfl rfl rfl false⟩

/-! ## The scanner reuses the memory of lines in flight -/

theorem writeAt_zero (buf bytes : List Byte) :
    writeAt buf 0 bytes = bytes ++ buf.drop bytes.length := by
  simp [writeAt]

theorem writeAt_length (buf bytes : List Byte) (pos : Nat)
    (h : pos + bytes.length ≤ buf.length) : (writeAt buf pos bytes).length = buf.length := by
  simp only [writeAt, List.length_append, List.length_take, List.length_drop]
  omega

theorem dropCR_of_ne (data : List Byte) (h : data.getLast? ≠ some 13) : dropCR data = data := by
  simp [dropCR, h]

theorem scanLines_line (a rest : List Byte) (atEOF : Bool) (hn : newline ∉ a)
    (hc : a.getLast? ≠ some 13) :
    scanLines (a ++ newline :: rest) atEOF = (a.length + 1, some a.length) := by
  have hmem : newline ∈ a ++ newline :: rest := by simp
  have hidx : (a ++ newline :: rest).indexOf newline = a.length := by
    rw [List.indexOf_append_of_not_mem hn]
    simp
  have hnil : (a ++ newline :: rest).isEmpty = false := by
    cases a <;> rfl
  simp only [scanLines, hnil, Bool.and_false, hmem, hidx, if_true, List.take_left']
  simp [dropCR_of_ne a hc]

theorem scanLines_more (b : List Byte) (hn : newline ∉ b) : scanLines b false = (0, none) := by
  simp [scanLines, hn]

theorem scanLines_final (b : List Byte) (hn : newline ∉ b) (hne : b ≠ [])
    (hc : b.getLast? ≠ some 13) : scanLines b true = (b.length, some b.length) := by
  have hnil : b.isEmpty = false := by
    cases b with
    | nil => exact absurd rfl hne
    | cons x xs => rfl
  simp [scanLines, hn, hnil, dropCR_of_ne b hc]

theorem scanLines_nil : scanLines [] true = (0, none) := by
  simp [scanLines]

theorem scanRound_first (A B Z : List Byte) (readErr : Bool) (hA : A.length = 33000)
    (hB : B.length = 100) (hZ : Z.length = 65536) :
    scanRound ⟨0, 0, 0, false, false⟩ [Z] (A ++ newline :: B) readErr 33100
      = (⟨0, 0, 33101, false, false⟩, [A ++ newline :: B ++ Z.drop 33101], [], .again) := by
  have hS : (A ++ newline :: B).length = 33101 := by simp [hA, hB]
  have htake : List.take 33101 (A ++ newline :: B) = A ++ newline :: B :=
    List.take_of_length_le (by omega)
  have hdrop : List.drop 33101 (A ++ newline :: B) = [] :=
    List.drop_of_length_le (by omega)
  simp [scanRound, scanShift, scanGrow, scanRead, hZ, writeAt_zero, htake, hdrop, hS, hA, hB]

theorem buf1_length (A B Z : List Byte) (hA : A.length = 33000) (hB : B.length = 100)
    (hZ : Z.length = 65536) : (A ++ newline :: B ++ Z.drop 33101).length = 65536 := by
  simp [hA, hB, hZ]

theorem buf1_take (A B Z : List Byte) (hA : A.length = 33000) (hB : B.length = 100) :
    (A ++ newline :: B ++ Z.drop 33101).take 33101 = A ++ newline :: B := by
  have hS : (A ++ newline :: B).length = 33101 := by simp [hA, hB]
  rw [← hS]
  exact List.take_left' rfl

theorem buf1_rest (A B Z : List Byte) (hA : A.length = 33000) (hB : B.length = 100) :
    ((A ++ newline :: B ++ Z.drop 33101).drop 33001).take 100 = B := by
  have h1 : (A ++ newline :: B ++ Z.drop 33101) = (A ++ [newline]) ++ (B ++ Z.drop 33101) := by
    simp
  have h2 : (A ++ [newline]).length = 33001 := by simp [hA]
  rw [h1, ← h2, List.drop_left', ← hB]
  · exact List.take_left' rfl
  · rfl

theorem buf1_drop (A B Z : List Byte) (hA : A.length = 33000) :
    (A ++ newline :: B ++ Z.drop 33101).drop 100
      = A.drop 100 ++ (newline :: B ++ Z.drop 33101) := by
  rw [List.append_assoc, List.drop_append_of_le_length (by omega)]

theorem scanRound_second (A B Z : List Byte) (readErr : Bool) (offered : Nat)
    (hA : A.length = 33000) (hB : B.length = 100) (hZ : Z.length = 65536)
    (hn : newline ∉ A) (hc : A.getLast? ≠ some 13) :
    scanRound ⟨0, 0, 33101, false, false⟩ [A ++ newline :: B ++ Z.drop 33101] [] readErr offered
      = (⟨0, 33001, 33101, false, false⟩, [A ++ newline :: B ++ Z.drop 33101], [],
          .token ⟨0, 0, 33000, 65536⟩) := by
  simp only [scanRound, List.getD_cons_zero, List.drop_zero, Nat.sub_zero,
    buf1_take A B Z hA hB, buf1_length A B Z hA hB hZ, scanLines_line A B false hn hc, hA]
  simp

theorem scanRound_third (A B Z : List Byte) (readErr : Bool) (offered : Nat)
    (hA : A.length = 33000) (hB : B.length = 100) (hZ : Z.length = 65536)
    (hn : newline ∉ B) :
    scanRound ⟨0, 33001, 33101, false, false⟩ [A ++ newline :: B ++ Z.drop 33101] [] readErr
        offered
      = (⟨0, 0, 100, true, readErr⟩,
          [B ++ (A.drop 100 ++ (newline :: B ++ Z.drop 33101))], [], .again) := by
  have hrest := buf1_rest A B Z hA hB
  simp only [scanRound, scanShift, scanGrow, scanRead, List.getD_cons_zero,
    buf1_length A B Z hA hB hZ, (by norm_num : 33101 - 33001 = 100), hrest,
    scanLines_more B hn, writeAt_zero, hB, buf1_drop A B Z hA]
  simp [hA, hB, hZ]

theorem buf2_length (A B Z : List Byte) (hA : A.length = 33000) (hB : B.length = 100)
    (hZ : Z.length = 65536) :
    (B ++ (A.drop 100 ++ (newline :: B ++ Z.drop 33101))).length = 65536 := by
  simp [hA, hB, hZ]

theorem buf2_take (A B Z : List Byte) (hB : B.length = 100) :
    (B ++ (A.drop 100 ++ (newline :: B ++ Z.drop 33101))).take 100 = B := by
  rw [← hB]
  exact List.take_left' rfl

/-- The bytes of the first line as the memory holds them after the shift. -/
theorem buf2_line (A B Z : List Byte) (hA : A.length = 33000) (hB : B.length = 100) :
    (B ++ (A.drop 100 ++ (newline :: B ++ Z.drop 33101))).take 33000 = B ++ A.drop 100 := by
  have h : (B ++ A.drop 100).length = 33000 := by simp [hA, hB]
  rw [← List.append_assoc, ← h]
  exact List.take_left' rfl

theorem scanRound_fourth (A B Z : List Byte) (readErr : Bool) (offered : Nat)
    (hA : A.length = 33000) (hB : B.length = 100) (hZ : Z.length = 65536)
    (hn : newline ∉ B) (hc : B.getLast? ≠ some 13) :
    scanRound ⟨0, 0, 100, true, readErr⟩ [B ++ (A.drop 100 ++ (newline :: B ++ Z.drop 33101))]
        [] readErr offered
      = (⟨0, 100, 100, true, readErr⟩,
          [B ++ (A.drop 100 ++ (newline :: B ++ Z.drop 33101))], [],
          .token ⟨0, 0, 100, 65536⟩) := by
  have hne : B ≠ [] := by
    intro h
    simp [h] at hB
  simp only [scanRound, List.getD_cons_zero, List.drop_zero, Nat.sub_zero, buf2_take A B Z hB,
    buf2_length A B Z hA hB hZ, scanLines_final B hn hne hc, hB]
  simp

theorem scanRound_fifth (A B Z : List Byte) (readErr : Bool) (offered : Nat) :
    scanRound ⟨0, 100, 100, true, readErr⟩
        [B ++ (A.drop 100 ++ (newline :: B ++ Z.drop 33101))] [] readErr offered
      = (⟨0, 0, 0, true, readErr⟩,
          [B ++ (A.drop 100 ++ (newline :: B ++ Z.drop 33101))], [], .stop) := by
  simp [scanRound, scanLines_nil]

theorem buf1_line (A B Z : List Byte) (hA : A.length = 33000) :
    (A ++ newline :: B ++ Z.drop 33101).take 33000 = A := by
  rw [List.append_assoc, ← hA]
  exact List.take_left' rfl

theorem read_sizes (h : Heap) (v : View) (hwf : v.off + v.cap ≤ (h.getD v.arr []).length)
    (hlc : v.len ≤ v.cap) :
    (v.read h).data.length = v.len ∧ (v.read h).spare.length = v.cap - v.len := by
  simp only [View.read, List.length_take, List.length_drop]
  omega

/-- With both offsets 0 the trim returns the header it was given. -/
theorem cut_view_identity (o : Options) (h : Heap) (v : View) (hL : o.Leadingbytes = 0)
    (hT : o.Trailingbytes = 0) (hwf : v.off + v.cap ≤ (h.getD v.arr []).length)
    (hlc : v.len ≤ v.cap) : cut_view o h v = some v := by
  obtain ⟨h1, h2⟩ := read_sizes h v hwf hlc
  simp only [cut_view, cut_line, hL, hT, gt_iff_lt, lt_self_iff_false, if_false,
    Option.map_some', Slice.cap, Slice.len, h1, h2, Option.some.injEq]
  cases v
  simp only [View.mk.injEq, true_and] at *
  omega

/-- Within the line the trim moves the header forward by the leading offset and
sets its length to the trailing one. -/
theorem cut_view_within (o : Options) (h : Heap) (v : View) (hL : 0 < o.Leadingbytes)
    (hT : 0 < o.Trailingbytes) (hLlen : o.Leadingbytes ≤ (v.len : Int))
    (hTlen : o.Trailingbytes ≤ (v.len : Int) - o.Leadingbytes)
    (hwf : v.off + v.cap ≤ (h.getD v.arr []).length) (hlc : v.len ≤ v.cap) :
    cut_view o h v
      = some ⟨v.arr, v.off + o.Leadingbytes.toNat, o.Trailingbytes.toNat,
          v.cap - o.Leadingbytes.toNat⟩ := by
  obtain ⟨h1, h2⟩ := read_sizes h v hwf hlc
  have hlow : (v.read h).sliceLow o.Leadingbytes
      = some ⟨(v.read h).data.drop o.Leadingbytes.toNat, (v.read h).spare⟩ :=
    sliceLow_ok _ _ (by omega) (by simp only [Slice.len, h1]; omega)
  have hcap : 0 ≤ o.Trailingbytes ∧ o.Trailingbytes
      ≤ ((((v.read h).data.drop o.Leadingbytes.toNat).length + (v.read h).spare.length : Nat) :
          Int) := by
    rw [List.length_drop, h1, h2]
    omega
  simp only [cut_view, cut_line, hL, hT, gt_iff_lt, if_true, hlow, Slice.sliceHigh, Slice.cap,
    hcap, and_self, Option.map_some', Slice.len, Option.some.injEq, View.mk.injEq, true_and]
  simp only [List.length_take, List.length_drop, List.length_append, h1, h2]
  omega

theorem exec_step (o : Options) (s s1 : Mem.State) (a : Mem.Action) (rest : List Mem.Action)
    (P : Mem.State → Prop) (h : Mem.step o s a = some s1)
    (hrest : ∃ s2, Mem.exec o s1 rest = some s2 ∧ P s2) :
    ∃ s2, Mem.exec o s (a :: rest) = some s2 ∧ P s2 := by
  obtain ⟨s2, h2, hP⟩ := hrest
  exact ⟨s2, by simp [Mem.exec, h, h2], hP⟩

theorem step_scan_again (o : Options) (s : Mem.State) (offered : Nat) (sc : Scanner)
    (heap : Heap) (stdin : List Byte) (hexit : s.exit = none) (hmain : s.main = .scan)
    (h : scanRound s.sc s.heap s.stdin s.readErr offered = (sc, heap, stdin, .again)) :
    Mem.step o s (.scan offered) = some { s with sc := sc, heap := heap, stdin := stdin } := by
  simp only [Mem.step, hexit, hmain, h]

theorem step_scan_token (o : Options) (s : Mem.State) (offered : Nat) (sc : Scanner)
    (heap : Heap) (stdin : List Byte) (line : View) (hexit : s.exit = none)
    (hmain : s.main = .scan)
    (h : scanRound s.sc s.heap s.stdin s.readErr offered = (sc, heap, stdin, .token line)) :
    Mem.step o s (.scan offered)
      = some { s with sc := sc, heap := heap, stdin := stdin, main := .send line } := by
  simp only [Mem.step, hexit, hmain, h]

theorem step_scan_stop (o : Options) (s : Mem.State) (offered : Nat) (sc : Scanner)
    (heap : Heap) (stdin : List Byte) (hexit : s.exit = none) (hmain : s.main = .scan)
    (h : scanRound s.sc s.heap s.stdin s.readErr offered = (sc, heap, stdin, .stop)) :
    Mem.step o s (.scan offered)
      = some { s with sc := sc, heap := heap, stdin := stdin, main := .closeLine,
                      diag := if sc.failed then s.diag ++ [Diag.readError] else s.diag } := by
  simp only [Mem.step, hexit, hmain, h]

theorem step_cutTrim (o : Options) (s : Mem.State) (line out : View) (hexit : s.exit = none)
    (hcut : s.cut = .trim line) (h : cut_view o s.heap line = some out) :
    Mem.step o s .cutTrim = some { s with cut := .send out } := by
  simp only [Mem.step, hexit, hcut, h]

/-- The run of `racySchedule` over a buffer `Z` of 65536 bytes on an input of a
33000-byte line and an unterminated 100-byte line: both lines are handed over
intact, and what is written is what the memory holds after the shift. -/
theorem racy_run_over (o : Options) (A B Z : List Byte) (readErr : Bool) (v1 v2 : View)
    (hA : A.length = 33000) (hB : B.length = 100) (hZ : Z.length = 65536)
    (hnA : newline ∉ A) (hnB : newline ∉ B)
    (hcA : A.getLast? ≠ some 13) (hcB : B.getLast? ≠ some 13)
    (h1 : cut_view o [B ++ (A.drop 100 ++ (newline :: B ++ Z.drop 33101))]
        ⟨0, 0, 33000, 65536⟩ = some v1)
    (h2 : cut_view o [B ++ (A.drop 100 ++ (newline :: B ++ Z.drop 33101))]
        ⟨0, 0, 100, 65536⟩ = some v2) :
    ∃ s, Mem.exec o
        { stdin := A ++ newline :: B, readErr := readErr, heap := [Z],
          sc := ⟨0, 0, 0, false, false⟩, main := .scan, cut := .recv, sink := .opening,
          lineClosed := false, saveClosed := false, doneClosed := false, lineHist := [],
          bfh := [], flushed := none, fhClosed := false, diag := [], exit := none }
        [.sinkOpen true, .scan 33100, .scan 0, .sendLine, .scan 0, .scan 0, .cutTrim, .sendSave,
          .sinkWrite, .sendLine, .cutTrim, .sendSave, .sinkWrite, .scan 0, .closeLine,
          .cutSeeClosed, .cutClose, .sinkSeeClosed, .sinkFlush true, .sinkCloseFh,
          .sinkCloseDone, .recvDone] = some s ∧
      (s.exit = some 0 ∧ s.doneClosed = true ∧ s.flushed = some true ∧ s.lineHist = [A, B] ∧
      s.bfh = (v1.read [B ++ (A.drop 100 ++ (newline :: B ++ Z.drop 33101))]).data
        ++ [newline] ++ (v2.read [B ++ (A.drop 100 ++ (newline :: B ++ Z.drop 33101))]).data
        ++ [newline]) := by
  have r1 := scanRound_first A B Z readErr hA hB hZ
  have r2 := scanRound_second A B Z readErr 0 hA hB hZ hnA hcA
  have r3 := scanRound_third A B Z readErr 0 hA hB hZ hnB
  have r4 := scanRound_fourth A B Z readErr 0 hA hB hZ hnB hcB
  have r5 := scanRound_fifth A B Z readErr 0
  have l1 := buf1_line A B Z hA
  have l2 := buf2_take A B Z hB
  refine exec_step _ _ _ _ _ _
    (by by_cases hout : o.Outfile = "-" <;> simp [Mem.step, hout] <;> rfl) ?_
  refine exec_step _ _ _ _ _ _ (step_scan_again o _ _ _ _ _ rfl rfl r1) ?_
  refine exec_step _ _ _ _ _ _ (step_scan_token o _ _ _ _ _ _ rfl rfl r2) ?_
  refine exec_step _ _ _ _ _ _ (by simp only [Mem.step]; rfl) ?_
  refine exec_step _ _ _ _ _ _ (step_scan_again o _ _ _ _ _ rfl rfl r3) ?_
  refine exec_step _ _ _ _ _ _ (step_scan_token o _ _ _ _ _ _ rfl rfl r4) ?_
  refine exec_step _ _ _ _ _ _ (step_cutTrim o _ _ _ rfl rfl h1) ?_
  refine exec_step _ _ _ _ _ _ (by simp only [Mem.step]; rfl) ?_
  refine exec_step _ _ _ _ _ _ (by simp only [Mem.step]; rfl) ?_
  refine exec_step _ _ _ _ _ _ (by simp only [Mem.step]; rfl) ?_
  refine exec_step _ _ _ _ _ _ (step_cutTrim o _ _ _ rfl rfl h2) ?_
  refine exec_step _ _ _ _ _ _ (by simp only [Mem.step]; rfl) ?_
  refine exec_step _ _ _ _ _ _ (by simp only [Mem.step]; rfl) ?_
  refine exec_step _ _ _ _ _ _ (step_scan_stop o _ _ _ _ _ rfl rfl r5) ?_
  refine exec_step _ _ _ _ _ _ (by simp only [Mem.step]; rfl) ?_
  refine exec_step _ _ _ _ _ _ (by simp only [Mem.step]; rfl) ?_
  refine exec_step _ _ _ _ _ _ (by simp only [Mem.step]; rfl) ?_
  refine exec_step _ _ _ _ _ _ (by simp only [Mem.step]; rfl) ?_
  refine exec_step _ _ _ _ _ _ (by simp only [Mem.step]; rfl) ?_
  refine exec_step _ _ _ _ _ _ (by simp only [Mem.step]; rfl) ?_
  refine exec_step _ _ _ _ _ _ (by simp only [Mem.step]; rfl) ?_
  refine exec_step _ _ _ _ _ _ (by simp only [Mem.step]; rfl) ?_
  refine ⟨_, rfl, rfl, rfl, rfl, ?_, ?_⟩
  · simp only [View.read, List.getD_cons_zero, List.drop_zero, l1, l2, List.nil_append,
      List.singleton_append]
  · simp only [List.nil_append]

/-- The third round of `Scan`, run while the first line is still with
`cut_bytes`, overwrites the first 100 bytes of that line. -/
theorem racy_overwrite_over (o : Options) (A B Z : List Byte) (readErr : Bool)
    (hA : A.length = 33000) (hB : B.length = 100) (hZ : Z.length = 65536)
    (hnA : newline ∉ A) (hnB : newline ∉ B) (hcA : A.getLast? ≠ some 13) :
    ∃ s1 s2, Mem.exec o
        { stdin := A ++ newline :: B, readErr := readErr, heap := [Z],
          sc := ⟨0, 0, 0, false, false⟩, main := .scan, cut := .recv, sink := .opening,
          lineClosed := false, saveClosed := false, doneClosed := false, lineHist := [],
          bfh := [], flushed := none, fhClosed := false, diag := [], exit := none }
        [.sinkOpen true, .scan 33100, .scan 0, .sendLine] = some s1 ∧
      Mem.step o s1 (.scan 0) = some s2 ∧
      s1.cut = .trim ⟨0, 0, 33000, 65536⟩ ∧ s1.lineHist = [A] ∧ s1.bfh = [] ∧
      ((⟨0, 0, 33000, 65536⟩ : View).read s1.heap).data = A ∧
      s2.cut = .trim ⟨0, 0, 33000, 65536⟩ ∧ s2.bfh = [] ∧ s2.exit = none ∧
      ((⟨0, 0, 33000, 65536⟩ : View).read s2.heap).data = B ++ A.drop 100 := by
  have r1 := scanRound_first A B Z readErr hA hB hZ
  have r2 := scanRound_second A B Z readErr 0 hA hB hZ hnA hcA
  have r3 := scanRound_third A B Z readErr 0 hA hB hZ hnB
  have l1 := buf1_line A B Z hA
  have l3 := buf2_line A B Z hA hB
  have hrun : ∃ s1, Mem.exec o
        { stdin := A ++ newline :: B, readErr := readErr, heap := [Z],
          sc := ⟨0, 0, 0, false, false⟩, main := .scan, cut := .recv, sink := .opening,
          lineClosed := false, saveClosed := false, doneClosed := false, lineHist := [],
          bfh := [], flushed := none, fhClosed := false, diag := [], exit := none }
        [.sinkOpen true, .scan 33100, .scan 0, .sendLine] = some s1 ∧
      s1 = { stdin := [], readErr := readErr, heap := [A ++ newline :: B ++ Z.drop 33101],
             sc := ⟨0, 33001, 33101, false, false⟩, main := .scan,
             cut := .trim ⟨0, 0, 33000, 65536⟩, sink := .recv,
             lineClosed := false, saveClosed := false, doneClosed := false,
             lineHist := [A], bfh := [], flushed := none, fhClosed := false, diag := [],
             exit := none } := by
    refine exec_step _ _ _ _ _ _
      (by by_cases hout : o.Outfile = "-" <;> simp [Mem.step, hout] <;> rfl) ?_
    refine exec_step _ _ _ _ _ _ (step_scan_again o _ _ _ _ _ rfl rfl r1) ?_
    refine exec_step _ _ _ _ _ _ (step_scan_token o _ _ _ _ _ _ rfl rfl r2) ?_
    refine exec_step _ _ _ _ _ _ (by simp only [Mem.step]; rfl) ?_
    refine ⟨_, rfl, ?_⟩
    simp only [View.read, List.getD_cons_zero, List.drop_zero, l1, List.nil_append]
  obtain ⟨s1, hs1, heq⟩ := hrun
  subst heq
  refine ⟨_, _, hs1, step_scan_again o _ _ _ _ _ rfl rfl r3, rfl, rfl, rfl, ?_, rfl, rfl, rfl, ?_⟩
  · simp only [View.read, List.getD_cons_zero, List.drop_zero, l1]
  · simp only [View.read, List.getD_cons_zero, List.drop_zero, l3]

theorem longLine_length : longLine.length = 33000 := List.length_replicate _ _

theorem shortLine_length : shortLine.length = 100 := List.length_replicate _ _

theorem zeros_length : (List.replicate startBufSize (0 : Byte)).length = 65536 :=
  List.length_replicate _ _

theorem longLine_newline : newline ∉ longLine :=
  fun h => absurd (List.eq_of_mem_replicate h) (by decide)

theorem shortLine_newline : newline ∉ shortLine :=
  fun h => absurd (List.eq_of_mem_replicate h) (by decide)

theorem longLine_cr : longLine.getLast? ≠ some 13 :=
  fun h => absurd (List.eq_of_mem_replicate (List.mem_of_getLast?_eq_some h)) (by decide)

theorem shortLine_cr : shortLine.getLast? ≠ some 13 :=
  fun h => absurd (List.eq_of_mem_replicate (List.mem_of_getLast?_eq_some h)) (by decide)

theorem longLine_drop : longLine.drop 100 = List.replicate 32900 97 :=
  List.drop_replicate 97 100 33000

/-- The first byte of the overwritten line is `b`, that of the line as read `a`. -/
theorem overwritten_ne (rest rest1 : List Byte) : shortLine ++ rest ≠ longLine ++ rest1 := by
  intro h
  have h0 := congrArg (fun l => l[0]?) h
  simp only [shortLine, longLine] at h0
  rw [List.getElem?_append_left (by rw [List.length_replicate]; decide),
    List.getElem?_append_left (by rw [List.length_replicate]; decide),
    List.getElem?_replicate_of_lt (by decide), List.getElem?_replicate_of_lt (by decide)] at h0
  exact absurd h0 (by decide)

theorem buf2_trim (A B Z : List Byte) (hB : B.length = 100) :
    ((B ++ (A.drop 100 ++ (newline :: B ++ Z.drop 33101))).drop 1).take 2
      = (B.drop 1).take 2 := by
  rw [List.drop_append_of_le_length (by omega),
    List.take_append_of_le_length (by rw [List.length_drop]; omega)]

/-- The run of `racySchedule` with both offsets 0: the first line is written
with its first 100 bytes replaced by the second line. -/
theorem racy_identity_over (o : Options) (A B Z : List Byte) (readErr : Bool)
    (hL : o.Leadingbytes = 0) (hT : o.Trailingbytes = 0)
    (hA : A.length = 33000) (hB : B.length = 100) (hZ : Z.length = 65536)
    (hnA : newline ∉ A) (hnB : newline ∉ B)
    (hcA : A.getLast? ≠ some 13) (hcB : B.getLast? ≠ some 13) :
    ∃ s, Mem.exec o
        { stdin := A ++ newline :: B, readErr := readErr, heap := [Z],
          sc := ⟨0, 0, 0, false, false⟩, main := .scan, cut := .recv, sink := .opening,
          lineClosed := false, saveClosed := false, doneClosed := false, lineHist := [],
          bfh := [], flushed := none, fhClosed := false, diag := [], exit := none }
        [.sinkOpen true, .scan 33100, .scan 0, .sendLine, .scan 0, .scan 0, .cutTrim, .sendSave,
          .sinkWrite, .sendLine, .cutTrim, .sendSave, .sinkWrite, .scan 0, .closeLine,
          .cutSeeClosed, .cutClose, .sinkSeeClosed, .sinkFlush true, .sinkCloseFh,
          .sinkCloseDone, .recvDone] = some s ∧
      (s.exit = some 0 ∧ s.doneClosed = true ∧ s.flushed = some true ∧ s.lineHist = [A, B] ∧
      s.bfh = B ++ A.drop 100 ++ [newline] ++ B ++ [newline]) := by
  have hlen := buf2_length A B Z hA hB hZ
  obtain ⟨s, hs, h1, h2, h3, h4, h5⟩ := racy_run_over o A B Z readErr _ _ hA hB hZ hnA hnB hcA hcB
    (cut_view_identity o _ ⟨0, 0, 33000, 65536⟩ hL hT
      (by simp only [List.getD_cons_zero, hlen]; omega) (by decide))
    (cut_view_identity o _ ⟨0, 0, 100, 65536⟩ hL hT
      (by simp only [List.getD_cons_zero, hlen]; omega) (by decide))
  refine ⟨s, hs, h1, h2, h3, h4, ?_⟩
  rw [h5]
  simp only [View.read, List.getD_cons_zero, List.drop_zero, buf2_line A B Z hA hB,
    buf2_take A B Z hB]

/-- The run of `racySchedule` with the offsets 1 and 2: both lines are written as
bytes 1 and 2 of the second line. -/
theorem racy_trim_over (o : Options) (A B Z : List Byte) (readErr : Bool)
    (hL : o.Leadingbytes = 1) (hT : o.Trailingbytes = 2)
    (hA : A.length = 33000) (hB : B.length = 100) (hZ : Z.length = 65536)
    (hnA : newline ∉ A) (hnB : newline ∉ B)
    (hcA : A.getLast? ≠ some 13) (hcB : B.getLast? ≠ some 13) :
    ∃ s, Mem.exec o
        { stdin := A ++ newline :: B, readErr := readErr, heap := [Z],
          sc := ⟨0, 0, 0, false, false⟩, main := .scan, cut := .recv, sink := .opening,
          lineClosed := false, saveClosed := false, doneClosed := false, lineHist := [],
          bfh := [], flushed := none, fhClosed := false, diag := [], exit := none }
        [.sinkOpen true, .scan 33100, .scan 0, .sendLine, .scan 0, .scan 0, .cutTrim, .sendSave,
          .sinkWrite, .sendLine, .cutTrim, .sendSave, .sinkWrite, .scan 0, .closeLine,
          .cutSeeClosed, .cutClose, .sinkSeeClosed, .sinkFlush true, .sinkCloseFh,
          .sinkCloseDone, .recvDone] = some s ∧
      (s.exit = some 0 ∧ s.doneClosed = true ∧ s.flushed = some true ∧ s.lineHist = [A, B] ∧
      s.bfh = (B.drop 1).take 2 ++ [newline] ++ (B.drop 1).take 2 ++ [newline]) := by
  have hlen := buf2_length A B Z hA hB hZ
  have hv1 : cut_view o [B ++ (A.drop 100 ++ (newline :: B ++ Z.drop 33101))]
      ⟨0, 0, 33000, 65536⟩ = some ⟨0, 1, 2, 65535⟩ := by
    rw [cut_view_within o _ ⟨0, 0, 33000, 65536⟩ (by rw [hL]; decide) (by rw [hT]; decide)
      (by rw [hL]; decide) (by rw [hL, hT]; decide)
      (by simp only [List.getD_cons_zero, hlen]; omega) (by decide), hL, hT]
    rfl
  have hv2 : cut_view o [B ++ (A.drop 100 ++ (newline :: B ++ Z.drop 33101))]
      ⟨0, 0, 100, 65536⟩ = some ⟨0, 1, 2, 65535⟩ := by
    rw [cut_view_within o _ ⟨0, 0, 100, 65536⟩ (by rw [hL]; decide) (by rw [hT]; decide)
      (by rw [hL]; decide) (by rw [hL, hT]; decide)
      (by simp only [List.getD_cons_zero, hlen]; omega) (by decide), hL, hT]
    rfl
  obtain ⟨s, hs, h1, h2, h3, h4, h5⟩ :=
    racy_run_over o A B Z readErr _ _ hA hB hZ hnA hnB hcA hcB hv1 hv2
  refine ⟨s, hs, h1, h2, h3, h4, ?_⟩
  rw [h5]
  simp only [View.read, List.getD_cons_zero, buf2_trim A B Z hB]

theorem shortLine_trim : (shortLine.drop 1).take 2 = [98, 98] := by
  rw [shortLine, List.drop_replicate, List.take_replicate]
  rfl

theorem longLine_trim : (longLine.drop 1).take 2 = [97, 97] := by
  rw [longLine, List.drop_replicate, List.take_replicate]
  rfl

/-- The run of `orderlySchedule` with both offsets 0: each line is written before
the next round of `Scan`, and the bytes written are the lines of the input. -/
theorem orderly_identity_over (o : Options) (A B Z : List Byte) (readErr : Bool)
    (hL : o.Leadingbytes = 0) (hT : o.Trailingbytes = 0)
    (hA : A.length = 33000) (hB : B.length = 100) (hZ : Z.length = 65536)
    (hnA : newline ∉ A) (hnB : newline ∉ B)
    (hcA : A.getLast? ≠ some 13) (hcB : B.getLast? ≠ some 13) :
    ∃ s, Mem.exec o
        { stdin := A ++ newline :: B, readErr := readErr, heap := [Z],
          sc := ⟨0, 0, 0, false, false⟩, main := .scan, cut := .recv, sink := .opening,
          lineClosed := false, saveClosed := false, doneClosed := false, lineHist := [],
          bfh := [], flushed := none, fhClosed := false, diag := [], exit := none }
        [.sinkOpen true, .scan 33100, .scan 0, .sendLine, .cutTrim, .sendSave, .sinkWrite,
          .scan 0, .scan 0, .sendLine, .cutTrim, .sendSave, .sinkWrite, .scan 0, .closeLine,
          .cutSeeClosed, .cutClose, .sinkSeeClosed, .sinkFlush true, .sinkCloseFh,
          .sinkCloseDone, .recvDone] = some s ∧
      (s.exit = some 0 ∧ s.doneClosed = true ∧ s.flushed = some true ∧ s.lineHist = [A, B] ∧
      s.bfh = A ++ [newline] ++ B ++ [newline]) := by
  have r1 := scanRound_first A B Z readErr hA hB hZ
  have r2 := scanRound_second A B Z readErr 0 hA hB hZ hnA hcA
  have r3 := scanRound_third A B Z readErr 0 hA hB hZ hnB
  have r4 := scanRound_fourth A B Z readErr 0 hA hB hZ hnB hcB
  have r5 := scanRound_fifth A B Z readErr 0
  have l1 := buf1_line A B Z hA
  have l2 := buf2_take A B Z hB
  have hv1 : cut_view o [A ++ newline :: B ++ Z.drop 33101] ⟨0, 0, 33000, 65536⟩
      = some ⟨0, 0, 33000, 65536⟩ :=
    cut_view_identity o _ ⟨0, 0, 33000, 65536⟩ hL hT
      (by simp only [List.getD_cons_zero, buf1_length A B Z hA hB hZ]; omega) (by decide)
  have hv2 : cut_view o [B ++ (A.drop 100 ++ (newline :: B ++ Z.drop 33101))]
      ⟨0, 0, 100, 65536⟩ = some ⟨0, 0, 100, 65536⟩ :=
    cut_view_identity o _ ⟨0, 0, 100, 65536⟩ hL hT
      (by simp only [List.getD_cons_zero, buf2_length A B Z hA hB hZ]; omega) (by decide)
  refine exec_step _ _ _ _ _ _
    (by by_cases hout : o.Outfile = "-" <;> simp [Mem.step, hout] <;> rfl) ?_
  refine exec_step _ _ _ _ _ _ (step_scan_again o _ _ _ _ _ rfl rfl r1) ?_
  refine exec_step _ _ _ _ _ _ (step_scan_token o _ _ _ _ _ _ rfl rfl r2) ?_
  refine exec_step _ _ _ _ _ _ (by simp only [Mem.step]; rfl) ?_
  refine exec_step _ _ _ _ _ _ (step_cutTrim o _ _ _ rfl rfl hv1) ?_
  refine exec_step _ _ _ _ _ _ (by simp only [Mem.step]; rfl) ?_
  refine exec_step _ _ _ _ _ _ (by simp only [Mem.step]; rfl) ?_
  refine exec_step _ _ _ _ _ _ (step_scan_again o _ _ _ _ _ rfl rfl r3) ?_
  refine exec_step _ _ _ _ _ _ (step_scan_token o _ _ _ _ _ _ rfl rfl r4) ?_
  refine exec_step _ _ _ _ _ _ (by simp only [Mem.step]; rfl) ?_
  refine exec_step _ _ _ _ _ _ (step_cutTrim o _ _ _ rfl rfl hv2) ?_
  refine exec_step _ _ _ _ _ _ (by simp only [Mem.step]; rfl) ?_
  refine exec_step _ _ _ _ _ _ (by simp only [Mem.step]; rfl) ?_
  refine exec_step _ _ _ _ _ _ (step_scan_stop o _ _ _ _ _ rfl rfl r5) ?_
  refine exec_step _ _ _ _ _ _ (by simp only [Mem.step]; rfl) ?_
  refine exec_step _ _ _ _ _ _ (by simp only [Mem.step]; rfl) ?_
  refine exec_step _ _ _ _ _ _ (by simp only [Mem.step]; rfl) ?_
  refine exec_step _ _ _ _ _ _ (by simp only [Mem.step]; rfl) ?_
  refine exec_step _ _ _ _ _ _ (by simp only [Mem.step]; rfl) ?_
  refine exec_step _ _ _ _ _ _ (by simp only [Mem.step]; rfl) ?_
  refine exec_step _ _ _ _ _ _ (by simp only [Mem.step]; rfl) ?_
  refine exec_step _ _ _ _ _ _ (by simp only [Mem.step]; rfl) ?_
  refine ⟨_, rfl, rfl, rfl, rfl, ?_, ?_⟩
  · simp only [View.read, List.getD_cons_zero, List.drop_zero, l1, l2, List.nil_append,
      List.singleton_append]
  · simp only [View.read, List.getD_cons_zero, List.drop_zero, l1, l2, List.nil_append]

/-- On the same input the run that writes each line before `main` scans on
gives the input back: the lines are lost to the order of the steps only. -/
theorem orderly_run_intact :
    ∃ s, Mem.exec ⟨"", "-", 0, 0⟩ (Mem.init racyInput false) (Mem.orderlySchedule 33100)
        = some s ∧
      s.exit = some 0 ∧ s.lineHist = [longLine, shortLine] ∧
      Mem.output s = some (longLine ++ [newline] ++ shortLine ++ [newline]) := by
  obtain ⟨s, hs, h1, _, h3, h4, h5⟩ :=
    orderly_identity_over ⟨"", "-", 0, 0⟩ longLine shortLine (List.replicate startBufSize 0)
      false rfl rfl longLine_length shortLine_length zeros_length longLine_newline
      shortLine_newline longLine_cr shortLine_cr
  exact ⟨s, hs, h1, h4, by simp only [Mem.output, h3, h5, if_true]⟩

/-! ## Claims about the lines while the scanner keeps reading -/

/-- Claim C8 fails on the code: on the input of 33000 bytes `a`, a newline and
100 bytes `b`, `main` hands the first line to `cut_bytes` intact and calls
`scanner.Scan()` again; that call shifts the unread bytes to the beginning of
the buffer, and the line `cut_bytes` still holds, of which nothing has been
written, now begins with 100 bytes `b`. -/
theorem scan_overwrites_line_in_flight :
    ∃ s1 s2, Mem.exec ⟨"", "-", 0, 0⟩ (Mem.init racyInput false)
        [.sinkOpen true, .scan 33100, .scan 0, .sendLine] = some s1 ∧
      Mem.step ⟨"", "-", 0, 0⟩ s1 (.scan 0) = some s2 ∧
      s1.cut = .trim ⟨0, 0, 33000, 65536⟩ ∧ s1.lineHist = [longLine] ∧ s1.bfh = [] ∧
      ((⟨0, 0, 33000, 65536⟩ : View).read s1.heap).data = longLine ∧
      s2.cut = .trim ⟨0, 0, 33000, 65536⟩ ∧ s2.bfh = [] ∧ s2.exit = none ∧
      ((⟨0, 0, 33000, 65536⟩ : View).read s2.heap).data
        = shortLine ++ List.replicate 32900 97 ∧
      ((⟨0, 0, 33000, 65536⟩ : View).read s2.heap).data ≠ longLine := by
  obtain ⟨s1, s2, h1, h2, h3, h4, h5, h6, h7, h8, h9, h10⟩ :=
    racy_overwrite_over ⟨"", "-", 0, 0⟩ longLine shortLine (List.replicate startBufSize 0) false
      longLine_length shortLine_length zeros_length longLine_newline shortLine_newline
      longLine_cr
  rw [longLine_drop] at h10
  exact ⟨s1, s2, h1, h2, h3, h4, h5, h6, h7, h8, h9, h10,
    h10 ▸ (List.append_nil longLine ▸ overwritten_ne _ [])⟩

/-- Claim C5 fails on the code: with `leadingbytes=0` and `trailingbytes=0`, on
the input of 33000 bytes `a`, a newline and 100 bytes `b`, the run in which
`main` scans the second line before the first is written ends with exit status 0
and an output whose first line is 100 bytes `b` followed by 32900 bytes `a`,
not the input line. -/
theorem identity_trim_overwritten :
    ∃ s, Mem.exec ⟨"", "-", 0, 0⟩ (Mem.init racyInput false) (Mem.racySchedule 33100) = some s ∧
      s.exit = some 0 ∧ s.lineHist = [longLine, shortLine] ∧
      Mem.output s = some (shortLine ++ List.replicate 32900 97 ++ [newline] ++ shortLine
        ++ [newline]) ∧
      Mem.output s ≠ some (longLine ++ [newline] ++ shortLine ++ [newline]) := by
  obtain ⟨s, hs, h1, _, h3, h4, h5⟩ :=
    racy_identity_over ⟨"", "-", 0, 0⟩ longLine shortLine (List.replicate startBufSize 0) false
      rfl rfl longLine_length shortLine_length zeros_length longLine_newline shortLine_newline
      longLine_cr shortLine_cr
  rw [longLine_drop] at h5
  have hout : Mem.output s = some (shortLine ++ List.replicate 32900 97 ++ [newline]
      ++ shortLine ++ [newline]) := by
    simp only [Mem.output, h3, h5, if_true]
  refine ⟨s, hs, h1, h4, hout, ?_⟩
  rw [hout]
  intro h
  have h1 := Option.some.inj h
  simp only [List.append_assoc] at h1
  exact overwritten_ne _ _ h1

/-- Claim C4 fails on the code: with `leadingbytes=1` and `trailingbytes=2`, both
within the two lines of the input of 33000 bytes `a`, a newline and 100 bytes
`b`, the trims of the lines are `"aa"` and `"bb"`; the run in which `main` scans
the second line before the first is written hands both lines over intact, ends
with exit status 0, and writes `"bb\nbb\n"`. -/
theorem order_and_count_overwritten :
    InBounds ⟨"", "-", 1, 2⟩ ⟨longLine, []⟩ ∧ InBounds ⟨"", "-", 1, 2⟩ ⟨shortLine, []⟩ ∧
      trimSpec 1 2 longLine = [97, 97] ∧ trimSpec 1 2 shortLine = [98, 98] ∧
      ∃ s, Mem.exec ⟨"", "-", 1, 2⟩ (Mem.init racyInput false) (Mem.racySchedule 33100)
          = some s ∧
        s.exit = some 0 ∧ s.lineHist = [longLine, shortLine] ∧
        Mem.output s = some [98, 98, 10, 98, 98, 10] := by
  refine ⟨?_, ?_, ?_, ?_, ?_⟩
  · simp only [InBounds, Slice.len, longLine_length]
    decide
  · simp only [InBounds, Slice.len, shortLine_length]
    decide
  · exact longLine_trim
  · exact shortLine_trim
  · obtain ⟨s, hs, h1, _, h3, h4, h5⟩ :=
      racy_trim_over ⟨"", "-", 1, 2⟩ longLine shortLine (List.replicate startBufSize 0) false
        rfl rfl longLine_length shortLine_length zeros_length longLine_newline
        shortLine_newline longLine_cr shortLine_cr
    rw [shortLine_trim] at h5
    exact ⟨s, hs, h1, h4, by simp only [Mem.output, h3, h5, if_true]; rfl⟩

end GoCut
